import Mathlib

/-!
Verification of the per-section scheduling, retry, and crash-safe persistence
engine of `hll_server_status` (file `hll_server_status/io.py`), against its
natural-language specification.  The Python code is shallowly embedded:
tomlkit documents become ordered association lists, the trio dispatch worker
becomes an explicit state-transition function over dispatch outcomes, and the
external webhook / HTTP API boundary is represented by explicit outcome values
fed to the embedded control flow.
-/

set_option autoImplicit false

namespace HLLServerStatus

/-- Source constant `constants.NONE_MESSAGE_ID`: the "no message" sentinel stored in place of
a missing Discord message id. -/
def NONE_MESSAGE_ID : Int := 0

/-- Source constant `constants.NS_TO_SECONDS_FACTOR`. -/
def NS_TO_SECONDS_FACTOR : Int := 1000000000

/-- Concrete table / section-key names used in witness scenarios; the table
name and section keys mirror the message-id document produced by the source
(one table of per-section message ids). -/
def tableName0 : String := "message_ids"

/-- Concrete section key for witness scenarios. -/
def headerKey : String := "header"

/-- Concrete section key for witness scenarios. -/
def gamestateKey : String := "gamestate"

/-- Concrete unknown (forward-compatibility) key for witness scenarios. -/
def oldSectionKey : String := "old_section"

/-- Concrete session-cookie value for witness scenarios. -/
def cookie0 : String := "session-1"

/-- A tomlkit table: an ordered association list from field names to integer
message ids (the only value shape the message-id store ever writes). -/
abbrev Table := List (String × Int)

/-- A tomlkit `TOMLDocument` as used for message ids: an ordered association
list from table names to tables. -/
abbrev TOMLDocument := List (String × Table)

/-- Key lookup in a table (`table[key]` / `key in table`): first matching
entry, as in a Python dict. -/
def Table.lookupKey : Table → String → Option Int
  | [], _ => none
  | (k, v) :: rest, key => if k = key then some v else Table.lookupKey rest key

/-- Assignment `table[key] = value` on a tomlkit table: replace the value of an existing
key, or append a new entry at the end. -/
def Table.setKey : Table → String → Int → Table
  | [], key, v => [(key, v)]
  | (k, w) :: rest, key, v =>
      if k = key then (k, v) :: rest else (k, w) :: Table.setKey rest key v

/-- Lookup `message_ids.get(table_name)`: look a table up by name. -/
def TOMLDocument.lookupTable : TOMLDocument → String → Option Table
  | [], _ => none
  | (n, t) :: rest, name => if n = name then some t else TOMLDocument.lookupTable rest name

/-- Assignment `message_ids[table_name][key] = value`.  The outer subscript raises
`tomlkit.exceptions.NonExistentKey` when the table is missing, which the
embedding renders as `none`. -/
def TOMLDocument.setIn : TOMLDocument → String → String → Int → Option TOMLDocument
  | [], _, _, _ => none
  | (n, t) :: rest, name, key, v =>
      if n = name then some ((n, Table.setKey t key v) :: rest)
      else (TOMLDocument.setIn rest name key v).map (fun d => (n, t) :: d)

/-- The (table, key) entry of a document, observed the way the Python code
reads it: `message_ids[table_name][key]`. -/
def getEntry (doc : TOMLDocument) (name key : String) : Option Int :=
  (doc.lookupTable name).bind (fun t => t.lookupKey key)

/-- Function `io.save_message_id`: substitute `NONE_MESSAGE_ID` for a `None` message id
and store the result at `message_ids[table_name][key]`. -/
def save_message_id (doc : TOMLDocument) (table_name key : String)
    (message_id : Option Int) : Option TOMLDocument :=
  let mid : Int := match message_id with
    | none => NONE_MESSAGE_ID
    | some m => m
  doc.setIn table_name key mid

/-- Type `models.MessageIDFormat`: the expected shape of a persisted message-id
document — a table name and the list of known section keys. -/
structure MessageIDFormat where
  table_name : String
  fields : List String

/-- Call `message_ids[table_name].add(field, default_value)`: append a new field at
the end of the named table.  When no table carries the name the document is
returned unchanged (the caller establishes the table first). -/
def addField : TOMLDocument → String → String → Int → TOMLDocument
  | [], _, _, _ => []
  | (n, t) :: rest, name, f, v =>
      if n = name then (n, t ++ [(f, v)]) :: rest
      else (n, t) :: addField rest name f v

/-- One iteration of the field loop of `io.validate_message_ids_format`:
`if field not in table: message_ids[table_name].add(field, default_value)`.
The trailing unknown-field check only logs, so it has no effect on the
document. -/
def ensureField (name : String) (default_value : Int)
    (doc : TOMLDocument) (f : String) : TOMLDocument :=
  match getEntry doc name f with
  | some _ => doc
  | none => addField doc name f default_value

/-- Function `io.validate_message_ids_format`: substitute an empty document for `None`,
create the format's table when missing, then create every missing known field
with the default value.  Existing entries, known or not, are never modified
or removed. -/
def validate_message_ids_format (message_ids : Option TOMLDocument)
    (format : MessageIDFormat) (default_value : Int) : TOMLDocument :=
  let doc : TOMLDocument := match message_ids with
    | none => []
    | some d => d
  let doc2 : TOMLDocument := match doc.lookupTable format.table_name with
    | some _ => doc
    | none => doc ++ [(format.table_name, [])]
  format.fields.foldl (ensureField format.table_name default_value) doc2

/-- The states of the persisted message-id file that `io.load_message_ids`
can encounter. -/
inductive DiskState where
  | absent
  | malformed
  | content (d : TOMLDocument)

/-- Function `io.load_message_ids` for an `app_store` whose in-memory `message_ids` is
`app_ids`.  The `try` around `load_message_ids_from_disk` catches only
`FileNotFoundError` (`DiskState.absent`); the `tomlkit.loads` parse error of a
malformed file (`DiskState.malformed`) is caught nowhere on this path, which
the embedding renders as `Except.error ()`. -/
def load_message_ids (app_ids : TOMLDocument) (disk : DiskState)
    (format : MessageIDFormat) (default_value : Int) :
    Except Unit TOMLDocument :=
  if app_ids = [] then
    match disk with
    | .absent => .ok (validate_message_ids_format (some app_ids) format default_value)
    | .malformed => .error ()
    | .content d => .ok (validate_message_ids_format (some d) format default_value)
  else .ok app_ids

/-- The dispatch worker state visible to `io.send_queued_webhook_update`:
the in-memory message ids, the `last_saved_message_ids` snapshot taken with
`copy(...)`, the content last physically written by
`save_message_ids_to_disk`, and a count of those writes. -/
structure WorkerState where
  message_ids : TOMLDocument
  last_saved : Option TOMLDocument
  disk : Option TOMLDocument
  writes : Nat
  deriving Repr, DecidableEq

/-- The observed value of `app_store.last_saved_message_ids` at comparison
time.  `copy` from Python's `copy` module is a shallow copy: the snapshot
shares every inner table object with `message_ids`, and the worker mutates
only inner tables (`message_ids[table][key] = id`) while the outer key set
never changes, so whenever a snapshot exists its observed value is the
current `message_ids`, not the value it had at copy time. -/
def observedLastSaved (last_saved : Option TOMLDocument)
    (current : TOMLDocument) : Option TOMLDocument :=
  last_saved.map (fun _ => current)

/-- The success path of one cycle of `io.send_queued_webhook_update`:
`save_message_id`, then the guarded `save_message_ids_to_disk` under
`if not app_store.last_saved_message_ids or
app_store.message_ids != app_store.last_saved_message_ids`, then
`last_saved_message_ids = copy(message_ids)`.  `none` is the
`tomlkit.exceptions.NonExistentKey` raised when the table is missing. -/
def dispatch_cycle_ok (s : WorkerState) (table_name key : String)
    (mid : Option Int) : Option WorkerState :=
  (save_message_id s.message_ids table_name key mid).map (fun mids2 =>
    let observed := observedLastSaved s.last_saved mids2
    let shouldFlush : Bool := match observed with
      | none => true
      | some o => decide (o = []) || decide (mids2 ≠ o)
    if shouldFlush then
      { message_ids := mids2, last_saved := some mids2,
        disk := some mids2, writes := s.writes + 1 }
    else
      { s with message_ids := mids2 })

/-- Running the dispatch worker over a sequence of successful dispatch
outcomes (the returned message ids) for one section. -/
def run_worker (s : WorkerState) (table_name key : String) :
    List (Option Int) → Option WorkerState
  | [] => some s
  | mid :: rest =>
      (dispatch_cycle_ok s table_name key mid).bind
        (fun s2 => run_worker s2 table_name key rest)

/-- The Python exception classes that can escape one dispatch cycle, as the
worker's `except (Exception, KeyboardInterrupt)` clause sees them:
any `Exception` subclass, `KeyboardInterrupt`, or `trio.Cancelled` (a bare
`BaseException` subclass raised at the worker's await points on task
cancellation). -/
inductive PyExc where
  | exception
  | keyboardInterrupt
  | cancelled
  deriving Repr, DecidableEq

/-- Whether `except (Exception, KeyboardInterrupt)` catches the class. -/
def caught_by_handler : PyExc → Bool
  | .exception => true
  | .keyboardInterrupt => true
  | .cancelled => false

/-- How one dispatch cycle can end: a normal return from `send_for_webhook`,
an exception raised by `send_for_webhook` itself (the in-flight
`message_id` is then still the payload's), or an exception raised after
`send_for_webhook` returned a new id (during the save or the guarded flush). -/
inductive CycleOutcome where
  | ok (mid : Option Int)
  | dispatchRaise (c : PyExc)
  | postRaise (mid : Option Int) (c : PyExc)

/-- The `except` branch of the worker: re-run `save_message_id` for the
in-flight id, call `save_message_ids_to_disk` unconditionally (no equality
guard, and `last_saved_message_ids` is not updated), then re-raise. -/
def exceptBranch (s : WorkerState) (table_name key : String)
    (mid : Option Int) (c : PyExc) : Option (WorkerState × Option PyExc) :=
  if caught_by_handler c then
    (save_message_id s.message_ids table_name key mid).map (fun mids2 =>
      ({ message_ids := mids2, last_saved := s.last_saved,
         disk := some mids2, writes := s.writes + 1 }, some c))
  else
    some (s, some c)

/-- One full cycle of `io.send_queued_webhook_update` including its failure
guard.  The second component is the exception class propagating out of the
worker, if any. -/
def dispatch_cycle (s : WorkerState) (table_name key : String)
    (payload_mid : Option Int) (out : CycleOutcome) :
    Option (WorkerState × Option PyExc) :=
  match out with
  | .ok mid => (dispatch_cycle_ok s table_name key mid).map (fun s2 => (s2, none))
  | .dispatchRaise c => exceptBranch s table_name key payload_mid c
  | .postRaise mid c => exceptBranch s table_name key mid c

/-- The httpx exception classes distinguished by `io.send_for_webhook`'s
handlers: `httpx.ConnectError` and any other `httpx.HTTPError`
(`httpx.HTTPStatusError` included). -/
inductive HttpxExc where
  | connectError
  | httpError
  deriving Repr, DecidableEq

/-- The externally observable effect of `webhook.edit()` / `webhook.execute()`:
either a response (status code, the `retry_after` body field read on 429, and
the integer value of `webhook.id` after the call — `none` when the id
attribute is left unset/falsy), or a raised httpx exception. -/
inductive WebhookCall where
  | returns (status : Nat) (retry_after : ℚ) (postId : Option Int)
  | raises (e : HttpxExc)

/-- What a call to `io.send_for_webhook` did: the returned message id, which
remote operation was attempted (`webhook.edit()` on a truthy id, otherwise
`webhook.execute()`), and the total duration slept.  Every branch of the
source returns normally — `RateLimited` is raised and caught internally,
404 raises `HTTPStatusError` which the `httpx.HTTPError` handler absorbs —
so the embedding is a total function. -/
structure SendResult where
  message_id : Option Int
  editCalled : Bool
  execCalled : Bool
  sleep : ℚ
  deriving Repr, DecidableEq

/-- Python truthiness of the `message_id : int | None` argument:
`None` and `0` are falsy. -/
def midTruthy : Option Int → Bool
  | none => false
  | some v => decide (v ≠ 0)

/-- Function `io.send_for_webhook`.  Here `disabled_sleep` is
`config.settings.disabled_section_sleep_timer`.  The rate-limit margin is the
source's literal `0.15`; the sleep on `RateLimited` is `retry_after + 0.15`. -/
def send_for_webhook (disabled_sleep : ℚ) (message_id : Option Int)
    (call : WebhookCall) : SendResult :=
  let isEdit := midTruthy message_id
  match call with
  | .raises .connectError =>
      { message_id := message_id, editCalled := isEdit,
        execCalled := !isEdit, sleep := disabled_sleep }
  | .raises .httpError =>
      { message_id := none, editCalled := isEdit,
        execCalled := !isEdit, sleep := 0 }
  | .returns status retry_after postId =>
      let mid2 : Option Int := match postId with
        | some n => some n
        | none => message_id
      if status = 404 then
        { message_id := none, editCalled := isEdit,
          execCalled := !isEdit, sleep := 0 }
      else if status = 429 then
        { message_id := mid2, editCalled := isEdit,
          execCalled := !isEdit, sleep := retry_after + 3 / 20 }
      else
        { message_id := mid2, editCalled := isEdit,
          execCalled := !isEdit, sleep := 0 }

/-- The exception classes relevant to `io.with_retry` and the section task's
`except*` clause: the `IndexError` / `ValueError` pair that `with_retry`
catches, `httpx.RequestError` (network errors and the `ConnectError` raised
for an empty result body), `httpx.HTTPStatusError` (unexpected status codes),
and the `RuntimeError` that `with_retry` raises on exhaustion. -/
inductive ApiErr where
  | indexError
  | valueError
  | requestError
  | statusError
  | runtimeError
  deriving Repr, DecidableEq

/-- One attempt of the wrapped API call: a result or a raised exception. -/
inductive ApiOutcome (R : Type) where
  | ok (r : R)
  | raise (e : ApiErr)

/-- What a call through `io.with_retry` did: its result or propagated
exception, how many attempts ran, and how many 1-second
`delay_between_retries` sleeps were performed. -/
structure RetryResult (R : Type) where
  result : Except ApiErr R
  attemptsMade : Nat
  sleeps : Nat

/-- The `for num in range(1, retries + 1)` loop of `io.with_retry`: the
`except (IndexError, ValueError)` clause absorbs those two classes and sleeps
before the next attempt; any other exception propagates immediately; an
exhausted loop raises `RuntimeError`. -/
def retryFrom {R : Type} (attempts : Nat → ApiOutcome R) :
    Nat → Nat → RetryResult R
  | _, 0 => ⟨.error .runtimeError, 0, 0⟩
  | num, remaining + 1 =>
      match attempts num with
      | .ok r => ⟨.ok r, 1, 0⟩
      | .raise e =>
          if e = .indexError ∨ e = .valueError then
            let rest := retryFrom attempts (num + 1) remaining
            ⟨rest.result, rest.attemptsMade + 1, rest.sleeps + 1⟩
          else ⟨.error e, 1, 0⟩

/-- Function `io.with_retry` with its fixed defaults `retries=10`,
`delay_between_retries=1` (the decorator is applied bare, so the defaults are
never overridden). -/
def with_retry {R : Type} (attempts : Nat → ApiOutcome R) : RetryResult R :=
  retryFrom attempts 1 10

/-- Which exception classes the section task's
`except* (httpx.RequestError, httpx.HTTPStatusError)` backoff handler in
`io.queue_webhook_update` absorbs. -/
def producer_absorbs : ApiErr → Bool
  | .requestError => true
  | .statusError => true
  | _ => false

/-- A JSON value as returned by `response.json()["result"]`. -/
inductive JSONValue where
  | null
  | bool (b : Bool)
  | int (n : Int)
  | float (num den : Int)
  | str (s : String)
  | list (xs : List JSONValue)
  | obj (fields : List (String × JSONValue))

/-- Whether a JSON value is a keyed structure (a Python dict). -/
def JSONValue.isObj : JSONValue → Bool
  | .obj _ => true
  | _ => false

/-- The normalization at the end of `io.get_api_result`:
`if isinstance(result, str) or isinstance(result, int) or
isinstance(result, list): result = {"result": result}`.  Python `bool` is a
subclass of `int`, so booleans are wrapped; floats match none of the three
checks and pass through bare. -/
def wrap_plain_result (result : JSONValue) : JSONValue :=
  match result with
  | .str _ => .obj [("result", result)]
  | .int _ => .obj [("result", result)]
  | .bool _ => .obj [("result", result)]
  | .list _ => .obj [("result", result)]
  | _ => result

/-- The result handling of `io.get_api_result` after the HTTP exchange: a
`None` result body raises `httpx.ConnectError`; anything else is returned
after normalization. -/
def get_api_result_body (result : JSONValue) : Except HttpxExc JSONValue :=
  match result with
  | .null => .error .connectError
  | r => .ok (wrap_plain_result r)

/-- The per-server login state read and written by `io.with_login`:
`app_store.cookies.get("sessionid")`, `app_store.logging_in`, and a count of
calls to `io.login`. -/
structure LoginState where
  session_cookie : Option String
  logging_in : Bool
  login_calls : Nat
  deriving Repr, DecidableEq

/-- The guarded prologue of `io.with_login`, executed by each task before its
API call.  `login` is a deliberately blocking synchronous `httpx.post` (the
source: "Use a blocking request since nothing else can proceed anyway until
we log in"), and there is no await point between the guard check, the flag
set, and the cookie store, so under trio's cooperative scheduling the whole
prologue is one atomic step: an interleaving of n tasks is a sequence of n
such steps. -/
def with_login_prologue (cookie : String) (s : LoginState) : LoginState :=
  if s.session_cookie = none ∧ s.logging_in = false then
    { session_cookie := some cookie, logging_in := true,
      login_calls := s.login_calls + 1 }
  else s

/-- A batch of `k` section tasks for the same server each run the `with_login` prologue
once, in some schedule; with identical atomic steps every schedule is this
iteration. -/
def run_login_batch (cookie : String) : Nat → LoginState → LoginState
  | 0, s => s
  | k + 1, s => run_login_batch cookie k (with_login_prologue cookie s)

/-- Python `round` for a rational `num / den` with `den > 0`: round to the
nearest integer, ties to the even neighbour (banker's rounding).  For a
positive divisor, Lean's Euclidean `/` and `%` on `Int` agree with Python's
flooring division and nonnegative remainder. -/
def roundHalfEven (num den : Int) : Int :=
  let q := num / den
  let r := num % den
  if 2 * r < den then q
  else if 2 * r > den then q + 1
  else if q % 2 = 0 then q else q + 1

/-- Function `io.calculate_sleep_time`: the difference between the refresh delay and
the elapsed time, rounded to whole seconds, floored at 1.  The source rounds
`(refresh_delay_ns - elapsed_time_ns) / NS_TO_SECONDS_FACTOR` with Python's
`round(…, ndigits=0)`. -/
def calculate_sleep_time (start_time_ns end_time_ns refresh_delay_seconds : Int) :
    Int :=
  let elapsed_time_ns := end_time_ns - start_time_ns
  let refresh_delay_ns := refresh_delay_seconds * NS_TO_SECONDS_FACTOR
  let time_to_sleep := roundHalfEven (refresh_delay_ns - elapsed_time_ns)
    NS_TO_SECONDS_FACTOR
  if time_to_sleep > 0 then time_to_sleep else 1

theorem Table.lookupKey_setKey_self (t : Table) (key : String) (v : Int) :
    (t.setKey key v).lookupKey key = some v := by
  induction t with
  | nil => simp [Table.setKey, Table.lookupKey]
  | cons hd rest ih =>
      obtain ⟨k, w⟩ := hd
      by_cases h : k = key
      · simp [Table.setKey, Table.lookupKey, h]
      · simp [Table.setKey, Table.lookupKey, h, ih]

theorem Table.lookupKey_setKey_ne (t : Table) (key k2 : String) (v : Int)
    (h : k2 ≠ key) : (t.setKey key v).lookupKey k2 = t.lookupKey k2 := by
  induction t with
  | nil => simp [Table.setKey, Table.lookupKey, Ne.symm h]
  | cons hd rest ih =>
      obtain ⟨k, w⟩ := hd
      by_cases hk : k = key
      · subst hk
        simp [Table.setKey, Table.lookupKey, Ne.symm h]
      · by_cases hk2 : k = k2
        · subst hk2
          simp [Table.setKey, Table.lookupKey, hk]
        · simp [Table.setKey, Table.lookupKey, hk, hk2, ih]

theorem TOMLDocument.setIn_isSome (doc : TOMLDocument) (name key : String)
    (v : Int) (tbl : Table) (h : doc.lookupTable name = some tbl) :
    ∃ doc2, doc.setIn name key v = some doc2 := by
  induction doc with
  | nil => simp [TOMLDocument.lookupTable] at h
  | cons hd rest ih =>
      obtain ⟨n, t⟩ := hd
      by_cases hn : n = name
      · exact ⟨(n, t.setKey key v) :: rest, by simp [TOMLDocument.setIn, hn]⟩
      · simp only [TOMLDocument.lookupTable, hn, if_false] at h
        obtain ⟨d2, hd2⟩ := ih h
        exact ⟨(n, t) :: d2, by simp [TOMLDocument.setIn, hn, hd2]⟩

theorem getEntry_setIn_self (doc doc2 : TOMLDocument) (name key : String)
    (v : Int) (h : doc.setIn name key v = some doc2) :
    getEntry doc2 name key = some v := by
  induction doc generalizing doc2 with
  | nil => simp [TOMLDocument.setIn] at h
  | cons hd rest ih =>
      obtain ⟨n, t⟩ := hd
      by_cases hn : n = name
      · subst hn
        simp only [TOMLDocument.setIn, if_true, if_pos rfl, Option.some.injEq] at h
        subst h
        simp [getEntry, TOMLDocument.lookupTable, Table.lookupKey_setKey_self]
      · simp only [TOMLDocument.setIn, hn, if_false, Option.map_eq_some'] at h
        obtain ⟨d2, hd2, hcons⟩ := h
        subst hcons
        simp only [getEntry, TOMLDocument.lookupTable, hn, if_false]
        exact ih d2 hd2

theorem getEntry_setIn_frame (doc doc2 : TOMLDocument) (name key : String)
    (v : Int) (n2 k2 : String) (h : doc.setIn name key v = some doc2)
    (hne : n2 ≠ name ∨ k2 ≠ key) :
    getEntry doc2 n2 k2 = getEntry doc n2 k2 := by
  induction doc generalizing doc2 with
  | nil => simp [TOMLDocument.setIn] at h
  | cons hd rest ih =>
      obtain ⟨n, t⟩ := hd
      by_cases hn : n = name
      · subst hn
        simp only [TOMLDocument.setIn, if_pos rfl, if_true, Option.some.injEq] at h
        subst h
        by_cases hn2 : n = n2
        · subst hn2
          rcases hne with hne | hne
          · exact absurd rfl hne
          · simp [getEntry, TOMLDocument.lookupTable,
              Table.lookupKey_setKey_ne t key k2 v hne]
        · simp [getEntry, TOMLDocument.lookupTable, hn2]
      · simp only [TOMLDocument.setIn, hn, if_false, Option.map_eq_some'] at h
        obtain ⟨d2, hd2, hcons⟩ := h
        subst hcons
        by_cases hn2 : n = n2
        · subst hn2
          simp [getEntry, TOMLDocument.lookupTable]
        · simp only [getEntry, TOMLDocument.lookupTable, hn2, if_false]
          exact ih d2 hd2

/-- C10: `save_message_id` stores the given id (or the sentinel `0` for
`None`) at exactly the addressed entry and leaves every other entry of the
mapping unchanged; the stored value is always an integer, never `None`. -/
theorem save_message_id_updates_only_target (doc : TOMLDocument)
    (table_name key : String) (message_id : Option Int) (tbl : Table)
    (h : doc.lookupTable table_name = some tbl) :
    ∃ doc2, save_message_id doc table_name key message_id = some doc2 ∧
      getEntry doc2 table_name key =
        some (match message_id with | none => NONE_MESSAGE_ID | some m => m) ∧
      ∀ n2 k2, n2 ≠ table_name ∨ k2 ≠ key →
        getEntry doc2 n2 k2 = getEntry doc n2 k2 := by
  obtain ⟨doc2, hdoc2⟩ :=
    TOMLDocument.setIn_isSome doc table_name key
      (match message_id with | none => NONE_MESSAGE_ID | some m => m) tbl h
  refine ⟨doc2, ?_, ?_, ?_⟩
  · simpa [save_message_id] using hdoc2
  · exact getEntry_setIn_self doc doc2 table_name key _ hdoc2
  · intro n2 k2 hne
    exact getEntry_setIn_frame doc doc2 table_name key _ n2 k2 hdoc2 hne

/-- C10 witness: a concrete store with one table; storing `some 777` and
`none` behaves as stated. -/
theorem save_message_id_updates_only_target_witness :
    ∃ doc2,
      save_message_id [("message_ids", [("header", 5), ("gamestate", 9)])]
        tableName0 headerKey (some 777) = some doc2 ∧
      getEntry doc2 tableName0 headerKey = some 777 ∧
      ∀ n2 k2, n2 ≠ tableName0 ∨ k2 ≠ headerKey →
        getEntry doc2 n2 k2 =
          getEntry [("message_ids", [("header", 5), ("gamestate", 9)])] n2 k2 := by
  have h := save_message_id_updates_only_target
    [("message_ids", [("header", 5), ("gamestate", 9)])]
    tableName0 headerKey (some 777) [("header", 5), ("gamestate", 9)]
    (by rfl)
  exact h

theorem Table.lookupKey_append_of_some (t l : Table) (k : String) (w : Int)
    (h : t.lookupKey k = some w) : (t ++ l).lookupKey k = some w := by
  induction t with
  | nil => simp [Table.lookupKey] at h
  | cons hd rest ih =>
      obtain ⟨k1, v1⟩ := hd
      by_cases hk : k1 = k
      · simp_all [Table.lookupKey, List.cons_append]
      · simp only [Table.lookupKey, hk, if_false] at h
        simp only [List.cons_append, Table.lookupKey, hk, if_false]
        exact ih h

theorem Table.lookupKey_append_single_none (t : Table) (f : String) (v : Int)
    (h : t.lookupKey f = none) : (t ++ [(f, v)]).lookupKey f = some v := by
  induction t with
  | nil => simp [Table.lookupKey]
  | cons hd rest ih =>
      obtain ⟨k1, v1⟩ := hd
      by_cases hk : k1 = f
      · simp [Table.lookupKey, hk] at h
      · simp only [Table.lookupKey, hk, if_false] at h
        simp only [List.cons_append, Table.lookupKey, hk, if_false]
        exact ih h

theorem Table.lookupKey_append_single_ne (t : Table) (f k : String) (v : Int)
    (h : k ≠ f) : (t ++ [(f, v)]).lookupKey k = t.lookupKey k := by
  induction t with
  | nil => simp [Table.lookupKey, Ne.symm h]
  | cons hd rest ih =>
      obtain ⟨k1, v1⟩ := hd
      by_cases hk : k1 = k
      · simp [List.cons_append, Table.lookupKey, hk]
      · simp only [List.cons_append, Table.lookupKey, hk, if_false]
        exact ih

theorem lookupTable_addField_self (doc : TOMLDocument) (name f : String)
    (v : Int) (t : Table) (h : doc.lookupTable name = some t) :
    (addField doc name f v).lookupTable name = some (t ++ [(f, v)]) := by
  induction doc with
  | nil => simp [TOMLDocument.lookupTable] at h
  | cons hd rest ih =>
      obtain ⟨n1, t1⟩ := hd
      by_cases hn : n1 = name
      · subst hn
        simp only [TOMLDocument.lookupTable, if_pos rfl, if_true,
          Option.some.injEq] at h
        subst h
        simp [addField, TOMLDocument.lookupTable]
      · simp only [TOMLDocument.lookupTable, hn, if_false] at h
        simp only [addField, hn, if_false, TOMLDocument.lookupTable]
        exact ih h

theorem lookupTable_addField_ne (doc : TOMLDocument) (name f : String)
    (v : Int) (n : String) (h : n ≠ name) :
    (addField doc name f v).lookupTable n = doc.lookupTable n := by
  induction doc with
  | nil => simp [addField]
  | cons hd rest ih =>
      obtain ⟨n1, t1⟩ := hd
      by_cases hn : n1 = name
      · subst hn
        simp [addField, TOMLDocument.lookupTable, Ne.symm h]
      · by_cases hn2 : n1 = n
        · simp [addField, TOMLDocument.lookupTable, hn, hn2, h]
        · simp only [addField, hn, if_false, TOMLDocument.lookupTable, hn2]
          exact ih

theorem addField_of_lookupTable_none (doc : TOMLDocument) (name f : String)
    (v : Int) (h : doc.lookupTable name = none) :
    addField doc name f v = doc := by
  induction doc with
  | nil => simp [addField]
  | cons hd rest ih =>
      obtain ⟨n1, t1⟩ := hd
      by_cases hn : n1 = name
      · simp [TOMLDocument.lookupTable, hn] at h
      · simp only [TOMLDocument.lookupTable, hn, if_false] at h
        simp [addField, hn, ih h]

theorem getEntry_ensureField_preserve (doc : TOMLDocument) (name f : String)
    (dv : Int) (n k : String) (w : Int) (h : getEntry doc n k = some w) :
    getEntry (ensureField name dv doc f) n k = some w := by
  unfold ensureField
  cases hE : getEntry doc name f with
  | some _ => exact h
  | none =>
      by_cases hn : n = name
      · subst hn
        unfold getEntry at h ⊢
        cases hT : doc.lookupTable n with
        | none => rw [hT] at h; simp at h
        | some t =>
            rw [hT] at h
            simp only [Option.bind_eq_some] at h
            obtain ⟨t2, ht2, hk⟩ := h
            rw [lookupTable_addField_self doc n f dv t hT]
            simp only [Option.some.injEq] at ht2
            subst ht2
            simpa using Table.lookupKey_append_of_some t [(f, dv)] k w hk
      · unfold getEntry at h ⊢
        rw [lookupTable_addField_ne doc name f dv n hn]
        exact h

theorem getEntry_ensureField_self (doc : TOMLDocument) (name f : String)
    (dv : Int) (t : Table) (h : doc.lookupTable name = some t) :
    getEntry (ensureField name dv doc f) name f =
      some ((getEntry doc name f).getD dv) := by
  unfold ensureField
  cases hE : getEntry doc name f with
  | some w => simp [hE]
  | none =>
      have ht : t.lookupKey f = none := by
        unfold getEntry at hE
        rw [h] at hE
        simpa using hE
      unfold getEntry
      rw [lookupTable_addField_self doc name f dv t h]
      simp [Table.lookupKey_append_single_none t f dv ht]

theorem getEntry_ensureField_frame (doc : TOMLDocument) (name f : String)
    (dv : Int) (n k : String) (hne : n ≠ name ∨ k ≠ f) :
    getEntry (ensureField name dv doc f) n k = getEntry doc n k := by
  unfold ensureField
  cases hE : getEntry doc name f with
  | some _ => rfl
  | none =>
      by_cases hn : n = name
      · subst hn
        rcases hne with hne | hne
        · exact absurd rfl hne
        · unfold getEntry
          cases hT : doc.lookupTable n with
          | none =>
              rw [addField_of_lookupTable_none doc n f dv hT]
              simp [hT]
          | some t =>
              rw [lookupTable_addField_self doc n f dv t hT]
              simp [Table.lookupKey_append_single_ne t f k dv hne]
      · unfold getEntry
        rw [lookupTable_addField_ne doc name f dv n hn]

theorem lookupTable_ensureField_isSome (doc : TOMLDocument) (name f : String)
    (dv : Int) (t : Table) (h : doc.lookupTable name = some t) :
    ∃ t2, (ensureField name dv doc f).lookupTable name = some t2 := by
  unfold ensureField
  cases hE : getEntry doc name f with
  | some _ => exact ⟨t, h⟩
  | none => exact ⟨t ++ [(f, dv)], lookupTable_addField_self doc name f dv t h⟩

theorem getEntry_foldl_ensure_preserve (fields : List String)
    (doc : TOMLDocument) (name : String) (dv : Int) (n k : String) (w : Int)
    (h : getEntry doc n k = some w) :
    getEntry (fields.foldl (ensureField name dv) doc) n k = some w := by
  induction fields generalizing doc with
  | nil => simpa using h
  | cons hd tl ih =>
      simp only [List.foldl_cons]
      exact ih _ (getEntry_ensureField_preserve doc name hd dv n k w h)

theorem getEntry_foldl_ensure_mem (fields : List String) (doc : TOMLDocument)
    (name : String) (dv : Int) (f : String) (t : Table) (hmem : f ∈ fields)
    (ht : doc.lookupTable name = some t) (hnone : getEntry doc name f = none) :
    getEntry (fields.foldl (ensureField name dv) doc) name f = some dv := by
  induction fields generalizing doc t with
  | nil => cases hmem
  | cons hd tl ih =>
      simp only [List.foldl_cons]
      by_cases hf : hd = f
      · subst hf
        have hstep := getEntry_ensureField_self doc name hd dv t ht
        rw [hnone] at hstep
        exact getEntry_foldl_ensure_preserve tl _ name dv name hd dv
          (by simpa using hstep)
      · have hframe := getEntry_ensureField_frame doc name hd dv name f
          (Or.inr (fun hh => hf hh.symm))
        obtain ⟨t2, ht2⟩ := lookupTable_ensureField_isSome doc name hd dv t ht
        have hmem2 : f ∈ tl := by
          rcases List.mem_cons.mp hmem with hh | hh
          · exact absurd hh.symm hf
          · exact hh
        exact ih (ensureField name dv doc hd) t2 hmem2 ht2 (hframe.trans hnone)

theorem lookupTable_append_single (d : TOMLDocument) (name : String)
    (t0 : Table) (n : String) :
    (d ++ [(name, t0)]).lookupTable n =
      match d.lookupTable n with
      | some t => some t
      | none => if name = n then some t0 else none := by
  induction d with
  | nil => simp [TOMLDocument.lookupTable]
  | cons hd rest ih =>
      obtain ⟨n1, t1⟩ := hd
      by_cases hn : n1 = n
      · simp [List.cons_append, TOMLDocument.lookupTable, hn]
      · simp only [List.cons_append, TOMLDocument.lookupTable, hn, if_false]
        exact ih

theorem getEntry_append_empty_table (d : TOMLDocument) (name : String)
    (n k : String) :
    getEntry (d ++ [(name, [])]) n k = getEntry d n k := by
  unfold getEntry
  rw [lookupTable_append_single d name [] n]
  cases hT : d.lookupTable n with
  | some t => rfl
  | none =>
      by_cases hn : name = n
      · simp [Table.lookupKey]
      · simp [hn]

theorem validate_preserves_entries (d : TOMLDocument) (fmt : MessageIDFormat)
    (dv : Int) (n k : String) (w : Int) (h : getEntry d n k = some w) :
    getEntry (validate_message_ids_format (some d) fmt dv) n k = some w := by
  unfold validate_message_ids_format
  cases hT : d.lookupTable fmt.table_name with
  | some t =>
      simp only [hT]
      exact getEntry_foldl_ensure_preserve fmt.fields d fmt.table_name dv n k w h
  | none =>
      simp only [hT]
      refine getEntry_foldl_ensure_preserve fmt.fields _ fmt.table_name dv n k w ?_
      rw [getEntry_append_empty_table d fmt.table_name n k]
      exact h

theorem validate_ensures_fields (d : TOMLDocument) (fmt : MessageIDFormat)
    (dv : Int) (f : String) (hmem : f ∈ fmt.fields) :
    ∃ v, getEntry (validate_message_ids_format (some d) fmt dv)
        fmt.table_name f = some v ∧
      (getEntry d fmt.table_name f = none → v = dv) := by
  unfold validate_message_ids_format
  cases hT : d.lookupTable fmt.table_name with
  | some t =>
      simp only [hT]
      cases hE : getEntry d fmt.table_name f with
      | some w =>
          refine ⟨w, ?_, by simp [hE]⟩
          exact getEntry_foldl_ensure_preserve fmt.fields d fmt.table_name dv
            fmt.table_name f w hE
      | none =>
          refine ⟨dv, ?_, fun _ => rfl⟩
          exact getEntry_foldl_ensure_mem fmt.fields d fmt.table_name dv f t
            hmem hT hE
  | none =>
      simp only [hT]
      have hE : getEntry d fmt.table_name f = none := by
        unfold getEntry
        rw [hT]
        rfl
      have hE2 : getEntry (d ++ [(fmt.table_name, [])]) fmt.table_name f = none := by
        rw [getEntry_append_empty_table d fmt.table_name fmt.table_name f]
        exact hE
      have hT2 : (d ++ [(fmt.table_name, [])]).lookupTable fmt.table_name
          = some [] := by
        rw [lookupTable_append_single d fmt.table_name [] fmt.table_name, hT]
        simp
      refine ⟨dv, ?_, fun _ => rfl⟩
      exact getEntry_foldl_ensure_mem fmt.fields _ fmt.table_name dv f []
        hmem hT2 hE2

/-- C6 counterexample: on a malformed persisted document, `load_message_ids`
does not synthesize a default document — the tomlkit parse error propagates
past the caller (only `FileNotFoundError` is caught). -/
theorem load_message_ids_malformed_raises :
    load_message_ids [] DiskState.malformed
      ⟨"message_ids", ["header"]⟩ NONE_MESSAGE_ID = .error () := rfl

/-- C6 amended: for an empty in-memory store, an absent file yields a default
document with every known section key mapped to the default sentinel; a
successfully parsed document is returned with all of its entries (unknown
keys included) preserved and every missing known key synthesized with the
default; a malformed file raises past the caller. -/
theorem load_message_ids_amended (fmt : MessageIDFormat) (dv : Int)
    (d : TOMLDocument) :
    load_message_ids [] DiskState.malformed fmt dv = .error () ∧
    (∃ res, load_message_ids [] DiskState.absent fmt dv = .ok res ∧
      ∀ f, f ∈ fmt.fields → getEntry res fmt.table_name f = some dv) ∧
    (∃ res, load_message_ids [] (DiskState.content d) fmt dv = .ok res ∧
      (∀ n k w, getEntry d n k = some w → getEntry res n k = some w) ∧
      (∀ f, f ∈ fmt.fields → ∃ v, getEntry res fmt.table_name f = some v ∧
        (getEntry d fmt.table_name f = none → v = dv))) := by
  refine ⟨rfl, ⟨validate_message_ids_format (some []) fmt dv, rfl, ?_⟩,
    ⟨validate_message_ids_format (some d) fmt dv, rfl, ?_, ?_⟩⟩
  · intro f hf
    obtain ⟨v, hv, hvd⟩ := validate_ensures_fields [] fmt dv f hf
    have : getEntry ([] : TOMLDocument) fmt.table_name f = none := rfl
    rw [hvd this] at hv
    exact hv
  · intro n k w h
    exact validate_preserves_entries d fmt dv n k w h
  · intro f hf
    exact validate_ensures_fields d fmt dv f hf

/-- C6 amended, witness: a store file carrying an unknown key `old_section`
and one known key; the unknown key survives, the missing known key is
synthesized with the sentinel, and the absent-file case defaults everything. -/
theorem load_message_ids_amended_witness :
    (∃ res, load_message_ids [] DiskState.absent
        ⟨"message_ids", ["header", "gamestate"]⟩ 0 = .ok res ∧
      getEntry res tableName0 headerKey = some 0 ∧
      getEntry res tableName0 gamestateKey = some 0) ∧
    (∃ res, load_message_ids []
        (DiskState.content [("message_ids", [("old_section", 42), ("header", 7)])])
        ⟨"message_ids", ["header", "gamestate"]⟩ 0 = .ok res ∧
      getEntry res tableName0 oldSectionKey = some 42 ∧
      getEntry res tableName0 headerKey = some 7 ∧
      ∃ v, getEntry res tableName0 gamestateKey = some v ∧ v = 0) := by
  obtain ⟨-, ⟨res1, hres1, hfields⟩, -⟩ :=
    load_message_ids_amended ⟨"message_ids", ["header", "gamestate"]⟩ 0 []
  obtain ⟨-, -, ⟨res2, hres2, hpres, hens⟩⟩ :=
    load_message_ids_amended ⟨"message_ids", ["header", "gamestate"]⟩ 0
      [("message_ids", [("old_section", 42), ("header", 7)])]
  refine ⟨⟨res1, hres1, ?_, ?_⟩, ⟨res2, hres2, ?_, ?_, ?_⟩⟩
  · exact hfields headerKey (by simp [headerKey])
  · exact hfields gamestateKey (by simp [gamestateKey])
  · exact hpres tableName0 oldSectionKey 42 (by rfl)
  · exact hpres tableName0 headerKey 7 (by rfl)
  · obtain ⟨v, hv, hvd⟩ := hens gamestateKey (by simp [gamestateKey])
    exact ⟨v, hv, hvd (by rfl)⟩

/-- C1: the flush-on-change policy of the dispatch worker is broken by the
shallow `copy(...)` snapshot.  From a freshly loaded store (`header = 0`,
no snapshot yet), two successful dispatches returning the new ids 5 and 7
produce exactly one disk write: the first cycle flushes `header = 5`, the
second changes the in-memory mapping to `header = 7` but is compared against
the aliased snapshot and skips the flush, so the last-flushed content stays
at `header = 5` while memory holds `header = 7`. -/
theorem run_worker_second_change_not_flushed :
    run_worker ⟨[("message_ids", [("header", 0)])], none, none, 0⟩
      "message_ids" "header" [some 5, some 7] =
    some ⟨[("message_ids", [("header", 7)])],
      some [("message_ids", [("header", 5)])],
      some [("message_ids", [("header", 5)])], 1⟩ := by
  decide

/-- C2 counterexample: a `trio.Cancelled` (a bare `BaseException`, raised on
task cancellation) arriving after `send_for_webhook` returned the new id 555
is not caught by `except (Exception, KeyboardInterrupt)`: the worker
propagates it without calling `save_message_id` or
`save_message_ids_to_disk`, and the freshly obtained id is lost. -/
theorem dispatch_crash_cancelled_skips_save :
    dispatch_cycle ⟨[("message_ids", [("header", 0)])], none, none, 0⟩
      "message_ids" "header" none (.postRaise (some 555) .cancelled) =
    some (⟨[("message_ids", [("header", 0)])], none, none, 0⟩,
      some .cancelled) := by
  decide

/-- C2 amended: when an exception of class `Exception` or `KeyboardInterrupt`
escapes a dispatch cycle — whether raised by `send_for_webhook` itself or
after it returned a new id — the worker saves the in-flight message id and
unconditionally flushes the store to disk before re-raising; exception
classes outside that pair (such as `trio.Cancelled`) propagate without the
save. -/
theorem dispatch_crash_save_amended (s : WorkerState) (tname key : String)
    (tbl : Table) (pm mid : Option Int) (c : PyExc)
    (htbl : s.message_ids.lookupTable tname = some tbl)
    (hc : caught_by_handler c = true) :
    (∃ s2, dispatch_cycle s tname key pm (.dispatchRaise c) = some (s2, some c) ∧
      getEntry s2.message_ids tname key =
        some (match pm with | none => NONE_MESSAGE_ID | some m => m) ∧
      s2.disk = some s2.message_ids ∧ s2.writes = s.writes + 1) ∧
    (∃ s2, dispatch_cycle s tname key pm (.postRaise mid c) = some (s2, some c) ∧
      getEntry s2.message_ids tname key =
        some (match mid with | none => NONE_MESSAGE_ID | some m => m) ∧
      s2.disk = some s2.message_ids ∧ s2.writes = s.writes + 1) := by
  constructor
  · obtain ⟨doc2, hdoc2⟩ := TOMLDocument.setIn_isSome s.message_ids tname key
      (match pm with | none => NONE_MESSAGE_ID | some m => m) tbl htbl
    refine ⟨⟨doc2, s.last_saved, some doc2, s.writes + 1⟩, ?_, ?_, rfl, rfl⟩
    · simp [dispatch_cycle, exceptBranch, hc, save_message_id, hdoc2]
    · exact getEntry_setIn_self s.message_ids doc2 tname key _ hdoc2
  · obtain ⟨doc2, hdoc2⟩ := TOMLDocument.setIn_isSome s.message_ids tname key
      (match mid with | none => NONE_MESSAGE_ID | some m => m) tbl htbl
    refine ⟨⟨doc2, s.last_saved, some doc2, s.writes + 1⟩, ?_, ?_, rfl, rfl⟩
    · simp [dispatch_cycle, exceptBranch, hc, save_message_id, hdoc2]
    · exact getEntry_setIn_self s.message_ids doc2 tname key _ hdoc2

/-- C2 amended, witness: a `KeyboardInterrupt` after a dispatch that returned
id 555 still persists the id and performs the disk write. -/
theorem dispatch_crash_save_amended_witness :
    ∃ s2, dispatch_cycle ⟨[("message_ids", [("header", 0)])], none, none, 0⟩
        "message_ids" "header" none
        (.postRaise (some 555) .keyboardInterrupt) =
      some (s2, some .keyboardInterrupt) ∧
      getEntry s2.message_ids tableName0 headerKey = some 555 ∧
      s2.disk = some s2.message_ids ∧ s2.writes = 1 := by
  obtain ⟨-, ⟨s2, h1, h2, h3, h4⟩⟩ :=
    dispatch_crash_save_amended
      ⟨[("message_ids", [("header", 0)])], none, none, 0⟩
      "message_ids" "header" [("header", 0)] none (some 555)
      .keyboardInterrupt rfl rfl
  exact ⟨s2, h1, h2, h3, h4⟩

theorem send_for_webhook_ops (dsleep : ℚ) (mid : Option Int)
    (call : WebhookCall) :
    (send_for_webhook dsleep mid call).editCalled = midTruthy mid ∧
    (send_for_webhook dsleep mid call).execCalled = !(midTruthy mid) := by
  cases call with
  | raises e => cases e <;> exact ⟨rfl, rfl⟩
  | returns status retry postId =>
      unfold send_for_webhook
      by_cases h404 : status = 404
      · simp [h404]
      · by_cases h429 : status = 429 <;> simp [h404, h429]

/-- C3 counterexample: a stale non-zero id whose edit receives a 404 makes
`send_for_webhook` return `None` without attempting a create in the same
call — not create a new message and return its id as the claim states. -/
theorem send_stale_edit_404_counterexample :
    (send_for_webhook 1 (some 123) (.returns 404 0 (some 123))).message_id
        = none ∧
    (send_for_webhook 1 (some 123) (.returns 404 0 (some 123))).execCalled
        = false := by
  decide

/-- C3 amended: for a truthy last message id whose edit receives a 404, the
`raise_for_status` error is absorbed by the `httpx.HTTPError` handler: the
call returns `None` (resetting the stored id to the sentinel) without
raising and without calling `webhook.execute()`; the new message is created
by the next dispatch for the section, whose falsy id (`None` or sentinel `0`)
routes to `webhook.execute()`. -/
theorem send_stale_edit_404_amended (dsleep retry : ℚ) (m : Int)
    (postId : Option Int) (hm : m ≠ 0) :
    (send_for_webhook dsleep (some m) (.returns 404 retry postId)).message_id
        = none ∧
    (send_for_webhook dsleep (some m) (.returns 404 retry postId)).editCalled
        = true ∧
    (send_for_webhook dsleep (some m) (.returns 404 retry postId)).execCalled
        = false ∧
    (∀ call2, (send_for_webhook dsleep none call2).execCalled = true ∧
      (send_for_webhook dsleep none call2).editCalled = false) ∧
    (∀ call2, (send_for_webhook dsleep (some 0) call2).execCalled = true ∧
      (send_for_webhook dsleep (some 0) call2).editCalled = false) := by
  refine ⟨rfl, ?_, ?_, ?_, ?_⟩
  · rw [(send_for_webhook_ops dsleep (some m) (.returns 404 retry postId)).1]
    simp [midTruthy, hm]
  · rw [(send_for_webhook_ops dsleep (some m) (.returns 404 retry postId)).2]
    simp [midTruthy, hm]
  · intro call2
    refine ⟨?_, ?_⟩
    · rw [(send_for_webhook_ops dsleep none call2).2]
      rfl
    · rw [(send_for_webhook_ops dsleep none call2).1]
      rfl
  · intro call2
    refine ⟨?_, ?_⟩
    · rw [(send_for_webhook_ops dsleep (some 0) call2).2]
      simp [midTruthy]
    · rw [(send_for_webhook_ops dsleep (some 0) call2).1]
      simp [midTruthy]

/-- C3 amended, witness: concrete stale id 123, 404 response. -/
theorem send_stale_edit_404_amended_witness :
    (send_for_webhook 1 (some 123) (.returns 404 0 (some 123))).message_id
        = none ∧
    (send_for_webhook 1 (some 123) (.returns 404 0 (some 123))).editCalled
        = true ∧
    (send_for_webhook 1 (some 0) (.returns 200 0 (some 9))).execCalled
        = true := by
  obtain ⟨h1, h2, -, -, h5⟩ :=
    send_stale_edit_404_amended 1 0 123 (some 123) (by decide)
  exact ⟨h1, h2, (h5 (.returns 200 0 (some 9))).1⟩

/-- C4 counterexample: a rate-limited edit does not return `None` — the call
returns the input message id (the constructor seeded `webhook.id` with it,
and `message_id = int(webhook.id)` runs before the 429 check). -/
theorem send_rate_limited_counterexample :
    (send_for_webhook 1 (some 123) (.returns 429 2 (some 123))).message_id
        = some 123 := by
  decide

/-- C4 amended: on a 429 response carrying `retry_after = t` the calling task
sleeps exactly `t + 0.15` (at least `t` plus the fixed safety margin), no
create is attempted beyond the rate-limited request, and the call returns
the input message id unchanged (`None` in the create case), so the
subsequent save leaves the stored id at its previous value. -/
theorem send_rate_limited_amended (dsleep t : ℚ) (m : Int) (hm : m ≠ 0) :
    ((send_for_webhook dsleep (some m) (.returns 429 t (some m))).sleep
        = t + 3 / 20 ∧
      t < (send_for_webhook dsleep (some m) (.returns 429 t (some m))).sleep ∧
      (send_for_webhook dsleep (some m) (.returns 429 t (some m))).message_id
        = some m ∧
      (send_for_webhook dsleep (some m) (.returns 429 t (some m))).execCalled
        = false) ∧
    ((send_for_webhook dsleep none (.returns 429 t none)).sleep = t + 3 / 20 ∧
      (send_for_webhook dsleep none (.returns 429 t none)).message_id
        = none ∧
      (send_for_webhook dsleep none (.returns 429 t none)).editCalled
        = false) := by
  refine ⟨⟨rfl, ?_, rfl, ?_⟩, rfl, rfl, rfl⟩
  · have h : (0 : ℚ) < 3 / 20 := by norm_num
    have h2 : (send_for_webhook dsleep (some m)
        (.returns 429 t (some m))).sleep = t + 3 / 20 := rfl
    rw [h2]
    linarith
  · rw [(send_for_webhook_ops dsleep (some m) (.returns 429 t (some m))).2]
    simp [midTruthy, hm]

/-- C4 amended, witness: `retry_after = 2` on an edit of id 123. -/
theorem send_rate_limited_amended_witness :
    (send_for_webhook 1 (some 123) (.returns 429 2 (some 123))).sleep
        = 2 + 3 / 20 ∧
    (send_for_webhook 1 (some 123) (.returns 429 2 (some 123))).message_id
        = some 123 := by
  obtain ⟨⟨h1, -, h3, -⟩, -⟩ := send_rate_limited_amended 1 2 123 (by decide)
  exact ⟨h1, h3⟩

/-- C5 counterexample: a network error (`httpx.RequestError`) is not retried
by `with_retry` at all — its `except (IndexError, ValueError)` clause does
not match, so the error propagates after a single attempt with no sleep,
not after 10 attempts. -/
theorem with_retry_network_error_counterexample :
    with_retry (R := Unit) (fun _ => .raise .requestError) =
      ⟨.error .requestError, 1, 0⟩ := by
  rfl

/-- C5 amended: `with_retry` retries only `IndexError` / `ValueError`
failures (malformed result data), sleeping 1 second between attempts, up to
10 attempts, then raises `RuntimeError`; an attempt of any other class —
network errors, the `ConnectError` raised for an empty result body, or an
unexpected HTTP status error — propagates from the first attempt with no
retry.  The propagated httpx errors are absorbed by the section task's
`except*` backoff handler, but the retry-exhaustion `RuntimeError` is not. -/
theorem with_retry_amended (e : ApiErr) :
    (e = .indexError ∨ e = .valueError →
      with_retry (R := Unit) (fun _ => .raise e) =
        ⟨.error .runtimeError, 10, 10⟩) ∧
    (¬(e = .indexError ∨ e = .valueError) →
      with_retry (R := Unit) (fun _ => .raise e) = ⟨.error e, 1, 0⟩) ∧
    with_retry (fun i => if i ≤ 9 then .raise .valueError else .ok 42) =
      ⟨.ok 42, 10, 9⟩ ∧
    producer_absorbs .requestError = true ∧
    producer_absorbs .statusError = true ∧
    producer_absorbs .runtimeError = false := by
  refine ⟨?_, ?_, rfl, rfl, rfl, rfl⟩
  · rintro (rfl | rfl) <;> rfl
  · intro h
    cases e with
    | indexError => exact absurd (Or.inl rfl) h
    | valueError => exact absurd (Or.inr rfl) h
    | requestError => rfl
    | statusError => rfl
    | runtimeError => rfl

/-- C5 amended, witness: a malformed-data failure is retried to exhaustion;
a status error propagates immediately and is absorbed by the task handler. -/
theorem with_retry_amended_witness :
    with_retry (R := Unit) (fun _ => .raise .valueError) =
      ⟨.error .runtimeError, 10, 10⟩ ∧
    with_retry (R := Unit) (fun _ => .raise .statusError) =
      ⟨.error .statusError, 1, 0⟩ := by
  exact ⟨(with_retry_amended .valueError).1 (Or.inr rfl),
    (with_retry_amended .statusError).2.1 (by simp)⟩

/-- C8 counterexample: a float result matches none of the
`isinstance(result, str | int | list)` checks (Python floats are not ints),
so it is returned bare — the returned value is not a keyed structure. -/
theorem get_api_result_float_counterexample :
    get_api_result_body (.float 3 2) = .ok (.float 3 2) ∧
    JSONValue.isObj (.float 3 2) = false := by
  exact ⟨rfl, rfl⟩

/-- C8 amended: string, integer (and boolean, a Python `int` subclass), and
list results are wrapped into the single-key structure
`{"result": value}`; a keyed structure is returned unchanged; a float result
is also returned unchanged, so it reaches downstream consumers unwrapped;
a `None` result raises `ConnectError` instead of being returned. -/
theorem get_api_result_normalization_amended :
    (∀ s, get_api_result_body (.str s) = .ok (.obj [("result", .str s)])) ∧
    (∀ n, get_api_result_body (.int n) = .ok (.obj [("result", .int n)])) ∧
    (∀ b, get_api_result_body (.bool b) = .ok (.obj [("result", .bool b)])) ∧
    (∀ xs, get_api_result_body (.list xs) = .ok (.obj [("result", .list xs)])) ∧
    (∀ fields, get_api_result_body (.obj fields) = .ok (.obj fields)) ∧
    (∀ a b, get_api_result_body (.float a b) = .ok (.float a b)) ∧
    get_api_result_body .null = .error .connectError := by
  exact ⟨fun _ => rfl, fun _ => rfl, fun _ => rfl, fun _ => rfl,
    fun _ => rfl, fun _ _ => rfl, rfl⟩

theorem run_login_batch_fixed (cookie : String) (k : Nat) (s : LoginState)
    (x : String) (hx : s.session_cookie = some x) :
    run_login_batch cookie k s = s := by
  induction k with
  | zero => rfl
  | succ j ih =>
      have hstep : with_login_prologue cookie s = s := by
        unfold with_login_prologue
        rw [hx]
        simp
      unfold run_login_batch
      rw [hstep]
      exact ih

/-- C9: from a state with no cached session cookie and the `logging_in` flag
clear, any batch of `k ≥ 1` concurrent section tasks running the `with_login`
prologue (each an atomic step, since the guarded section contains no await
point and `login` is a blocking synchronous call) issues exactly one login
call; the remaining tasks observe the cached cookie and reuse it. -/
theorem with_login_single_flight (cookie : String) (k calls0 : Nat)
    (hk : 1 ≤ k) :
    (run_login_batch cookie k ⟨none, false, calls0⟩).login_calls
        = calls0 + 1 ∧
    (run_login_batch cookie k ⟨none, false, calls0⟩).session_cookie
        = some cookie := by
  obtain ⟨j, rfl⟩ : ∃ j, k = j + 1 := ⟨k - 1, by omega⟩
  have hstep : with_login_prologue cookie ⟨none, false, calls0⟩ =
      ⟨some cookie, true, calls0 + 1⟩ := by
    unfold with_login_prologue
    simp
  have hrest := run_login_batch_fixed cookie j
    ⟨some cookie, true, calls0 + 1⟩ cookie rfl
  unfold run_login_batch
  rw [hstep, hrest]
  exact ⟨rfl, rfl⟩

/-- C9 witness: three sections polling concurrently at the same tick issue a
single login call. -/
theorem with_login_single_flight_witness :
    (run_login_batch cookie0 3 ⟨none, false, 0⟩).login_calls = 0 + 1 ∧
    (run_login_batch cookie0 3 ⟨none, false, 0⟩).session_cookie
        = some cookie0 :=
  with_login_single_flight cookie0 3 0 (by decide)

theorem roundHalfEven_mul (m den : Int) (hden : 0 < den) :
    roundHalfEven (m * den) den = m := by
  unfold roundHalfEven
  rw [Int.mul_ediv_cancel m (ne_of_gt hden), Int.mul_emod_left m den]
  simp [hden]

/-- C7: for any timestamps `start ≤ end` (nanoseconds) and refresh delay
`r ≥ 1` (seconds), `calculate_sleep_time` returns at least 1; it equals
`max 1` of the remaining refresh interval rounded to whole seconds, and in
particular equals `max(1, r - k)` whenever the elapsed time is exactly `k`
whole seconds. -/
theorem calculate_sleep_time_spec (s e r : Int) (hse : s ≤ e) (hr : 1 ≤ r) :
    1 ≤ calculate_sleep_time s e r ∧
    calculate_sleep_time s e r =
      max 1 (roundHalfEven (r * NS_TO_SECONDS_FACTOR - (e - s))
        NS_TO_SECONDS_FACTOR) ∧
    ∀ k : Int, e - s = k * NS_TO_SECONDS_FACTOR →
      calculate_sleep_time s e r = max 1 (r - k) := by
  have hmax : ∀ t : Int, (if t > 0 then t else 1) = max 1 t := by
    intro t
    by_cases h : t > 0
    · rw [if_pos h]
      exact (max_eq_right (by omega)).symm
    · rw [if_neg h]
      exact (max_eq_left (by omega)).symm
  have hcalc : calculate_sleep_time s e r =
      max 1 (roundHalfEven (r * NS_TO_SECONDS_FACTOR - (e - s))
        NS_TO_SECONDS_FACTOR) := by
    unfold calculate_sleep_time
    exact hmax _
  refine ⟨?_, hcalc, ?_⟩
  · rw [hcalc]
    exact le_max_left 1 _
  · intro k hk
    rw [hcalc, hk]
    have : r * NS_TO_SECONDS_FACTOR - k * NS_TO_SECONDS_FACTOR =
        (r - k) * NS_TO_SECONDS_FACTOR := by ring
    rw [this, roundHalfEven_mul (r - k) NS_TO_SECONDS_FACTOR (by norm_num [NS_TO_SECONDS_FACTOR])]

/-- C7 witness: 2 elapsed seconds of a 5-second refresh delay leave a
3-second sleep. -/
theorem calculate_sleep_time_spec_witness :
    1 ≤ calculate_sleep_time 0 2000000000 5 ∧
    calculate_sleep_time 0 2000000000 5 = max 1 (5 - 2) := by
  obtain ⟨h1, -, h3⟩ := calculate_sleep_time_spec 0 2000000000 5
    (by decide) (by decide)
  exact ⟨h1, h3 2 (by decide)⟩

end HLLServerStatus
